import Mathlib

/-!
# transacto: a verification development of `app/main.go`

The service keeps an append-only ledger of transfers in one MongoDB
collection and offers three handlers: `TransactionsCreate`,
`TransactionsList` and `BalanceList`.

The embedding follows `main.go` statement by statement.  The library calls
the handlers make (`strconv`, `net/url`, `time`, `mgo`/`bson`) are modelled
by their documented behaviour:

* Go `int`, `int64` values are `Int`; the handlers do no arithmetic on them.
  Where the libraries compute, the 64-bit limits are explicit: `time` wraps
  modulo `2^64` (`wrap64`), and the server-side `$sum` and `$multiply` return
  an integer only when it fits 64 bits and a double otherwise (`Number`);
  the numeric value of a double is not modelled;
* answers of the storage adapter that the handler cannot predict (a fault,
  the identifier assigned to an inserted document) are given by an explicit
  `Adapter` argument;
* `log.Fatal` ends the process: it is the outcome `Outcome.fatal`;
* the process's local time zone, which `time.Unix` consults, is an explicit
  `Location` argument; calendar dates are proleptic Gregorian, counted from
  the absolute epoch of the `time` package;
* writing the response body is taken to succeed: the branches after a failed
  `json.NewEncoder(w).Encode` belong to the HTTP layer and are not modelled.
-/

namespace Transacto

/-! ## strconv -/

/-- Width of Go's `int` on the 64-bit platforms the service is built for. -/
def IntSize : Nat := 64

/-- Value of an ASCII decimal digit, as in the digit loop of `strconv.ParseUint`. -/
def digit (c : Char) : Option Nat :=
  if 48 ≤ c.toNat ∧ c.toNat ≤ 57 then some (c.toNat - 48) else none

/-- Digit loop of `strconv.ParseUint(s, 10, _)`: every character must be a decimal digit. -/
def parseDigits : List Char → Nat → Option Nat
  | [], n => some n
  | c :: cs, n =>
    match digit c with
    | none => none
    | some d => parseDigits cs (n * 10 + d)

/-- Model of `strconv.ParseUint(s, 10, bitSize)` on the characters of `s`: `none` when `err != nil`
(empty input, a character that is not a digit, or a value above `2^bitSize - 1`). -/
def ParseUint (cs : List Char) (bitSize : Nat) : Option Nat :=
  match cs with
  | [] => none
  | _ :: _ =>
    match parseDigits cs 0 with
    | none => none
    | some n => if n < 2 ^ bitSize then some n else none

/-- Model of `strconv.ParseInt(s, 10, bitSize)`: an optional leading sign, then `ParseUint`, then the
signed range check against `cutoff = 1 << (bitSize-1)`. `none` stands for `err != nil`. -/
def ParseInt (s : String) (bitSize : Nat) : Option Int :=
  match s.data with
  | [] => none
  | c :: rest =>
    let neg : Bool := c = '-'
    let body : List Char := if c = '+' ∨ c = '-' then rest else c :: rest
    match ParseUint body bitSize with
    | none => none
    | some un =>
      let cutoff : Nat := 2 ^ (bitSize - 1)
      if !neg && decide (cutoff ≤ un) then none
      else if neg && decide (cutoff < un) then none
      else some (if neg then -(un : Int) else (un : Int))

/-- Model of `strconv.Atoi(s)`, which is `ParseInt(s, 10, 0)` narrowed to `int`. -/
def Atoi (s : String) : Option Int := ParseInt s IntSize

/-! ## net/url -/

/-- Parsed query string: the `key=value` pairs in the order they were given (`url.Values`). -/
abbrev Values := List (String × String)

/-- Model of `url.Values.Get`: the first value associated with the key, or `""` when there is none. -/
def Values.Get : Values → String → String
  | [], _ => ""
  | (k, v) :: rest, key => if k = key then v else Values.Get rest key

/-- Model of `url.Values.Del`: every value associated with the key is removed. -/
def Values.Del (v : Values) (key : String) : Values :=
  v.filter (fun p => p.1 ≠ key)

/-! ## time -/

/-- A `*time.Location`, as the offset in seconds east of UTC in force at a Unix instant. -/
structure Location where
  offset : Int → Int

/-- The location `time.UTC`. -/
def UTC : Location := ⟨fun _ => 0⟩

/-- A location with one fixed offset (`time.FixedZone`). -/
def FixedZone (seconds : Int) : Location := ⟨fun _ => seconds⟩

/-- A `time.Time` at whole-second resolution: the Unix instant and the location it is shown in. -/
structure Time where
  sec : Int
  loc : Location

/-- Proleptic Gregorian date `(year, month, day)` of the day that is `z` days after 1970-01-01. -/
def civilFromDays (z : Int) : Int × Int × Int :=
  let z := z + 719468
  let era := z / 146097
  let doe := z - era * 146097
  let yoe := (doe - doe / 1460 + doe / 36524 - doe / 146096) / 365
  let doy := doe - (365 * yoe + yoe / 4 - yoe / 100)
  let mp := (5 * doy + 2) / 153
  let d := doy - (153 * mp + 2) / 5 + 1
  let m := if mp < 10 then mp + 3 else mp - 9
  let y := yoe + era * 400
  (if m ≤ 2 then y + 1 else y, m, d)

/-- Number of days from 1970-01-01 to the proleptic Gregorian date `y`-`m`-`d`. -/
def daysFromCivil (y m d : Int) : Int :=
  let y := if m ≤ 2 then y - 1 else y
  let era := y / 400
  let yoe := y - era * 400
  let doy := (153 * (if 2 < m then m - 3 else m + 9) + 2) / 5 + d - 1
  let doe := yoe * 365 + yoe / 4 - yoe / 100 + doy
  era * 146097 + doe - 719468

/-- Conversion to `int64`: the two's complement value of an integer modulo `2^64`
(`2^63 = 9223372036854775808`, `2^64 = 18446744073709551616`). -/
def wrap64 (n : Int) : Int :=
  (n + 9223372036854775808) % 18446744073709551616 - 9223372036854775808

/-- The constant `unixToInternal + internalToAbsolute` of the `time` package: seconds from its
absolute epoch (1 January of the year -292277022399) to 1970-01-01, a whole number of days.
This is the epoch of the Go releases the service was written for (through Go 1.22); later
releases start the count 306 days earlier, which changes a date only where the count below
wraps, for instants more than 292 billion years before 1970. -/
def unixToAbsolute : Int := 9223372028715321600

/-- Model of `time.Unix(sec, 0)`: "Unix returns the local Time", so the location is the process's
local one. -/
def Unix ( local_ : Location) (sec : Int) : Time := ⟨sec, local_⟩

/-- Model of `Time.abs`: seconds since the absolute epoch in the location of `t`, a `uint64`
(so modulo `2^64`): `uint64(sec + offset + (unixToInternal + internalToAbsolute))`. -/
def Time.abs (t : Time) : Int :=
  (t.sec + t.loc.offset t.sec + unixToAbsolute) % 18446744073709551616

/-- Calendar date of `t` in its own location (`Time.Date`), from the day count of `Time.abs`. -/
def Time.civil (t : Time) : Int × Int × Int :=
  civilFromDays (t.abs / 86400 - unixToAbsolute / 86400)

/-- Model of `Time.Year`. -/
def Time.Year (t : Time) : Int := t.civil.1

/-- Model of `Time.Month`. -/
def Time.Month (t : Time) : Int := t.civil.2.1

/-- Model of `Time.Day`. -/
def Time.Day (t : Time) : Int := t.civil.2.2

/-- Model of `time.Date(year, month, day, hour, min, sec, 0, time.UTC).Unix()`, the only way the
service uses `time.Date`; the result is an `int64`. -/
def DateUTC (year month day hour min sec : Int) : Int :=
  wrap64 (daysFromCivil year month day * 86400 + hour * 3600 + min * 60 + sec)

/-! ## bson: documents and queries -/

/-- A `bson.ObjectId`; the empty string is the unset identifier that `omitempty` leaves out. -/
abbrev ObjectId := String

/-- The Go struct `Transaction`. -/
structure Transaction where
  Id : ObjectId
  Sender : Int
  Receiver : Int
  Timestamp : Int
  Sum : Int
  deriving DecidableEq, Repr

/-- A document of the collection `transactions`, under the keys the struct tags give it.
A stored document always has its `_id`. -/
structure Doc where
  _id : ObjectId
  sender : Int
  receiver : Int
  timestamp : Int
  sum : Int
  deriving DecidableEq, Repr

/-- Keys of a stored document. -/
inductive Field where
  | _id
  | sender
  | receiver
  | timestamp
  | sum
  deriving DecidableEq, Repr

/-- The integer stored under a key; `_id` holds an identifier, not an integer. -/
def Doc.num (d : Doc) : Field → Option Int
  | ._id => none
  | .sender => some d.sender
  | .receiver => some d.receiver
  | .timestamp => some d.timestamp
  | .sum => some d.sum

/-- Whether the document has the key: all five keys are always written. -/
def Doc.has (_d : Doc) (_f : Field) : Bool := true

/-- The document that `All(&result)` decodes into the struct. -/
def Doc.toTransaction (d : Doc) : Transaction :=
  ⟨d._id, d.sender, d.receiver, d.timestamp, d.sum⟩

/-- One entry of a query document `bson.M`, for the operators the service uses. -/
inductive Clause where
  /-- The entry `f: bson.M{"$exists": b}`. -/
  | exists_ (f : Field) (b : Bool)
  /-- The entry `f: bson.M{"$gte": lo}`. -/
  | gte (f : Field) (lo : Int)
  /-- The entry `f: bson.M{"$gte": lo, "$lt": hi}`. -/
  | gteLt (f : Field) (lo hi : Int)
  /-- The entry `"$or": []bson.M{{f₁: v₁}, {f₂: v₂}, ...}`. -/
  | or (alts : List (Field × Int))
  deriving DecidableEq, Repr

/-- Key of a query entry: a document key, or `none` for the operator `$or`. -/
def Clause.key : Clause → Option Field
  | .exists_ f _ => some f
  | .gte f _ => some f
  | .gteLt f _ _ => some f
  | .or _ => none

/-- Whether a stored document satisfies the entry (MongoDB's matching rules on integers). -/
def Clause.holds (d : Doc) : Clause → Bool
  | .exists_ f b => d.has f == b
  | .gte f lo =>
    match d.num f with
    | some v => decide (lo ≤ v)
    | none => false
  | .gteLt f lo hi =>
    match d.num f with
    | some v => decide (lo ≤ v) && decide (v < hi)
    | none => false
  | .or alts => alts.any (fun p => d.num p.1 == some p.2)

/-- A query document `bson.M`: a map, kept as its entries with one entry per key. -/
abbrev Query := List Clause

/-- The assignment `query[key] = value` on the map. -/
def Query.set (q : Query) (c : Clause) : Query :=
  q.filter (fun e => e.key ≠ c.key) ++ [c]

/-- A document matches a query document when it satisfies every entry. -/
def Query.matches (q : Query) (d : Doc) : Bool :=
  q.all (Clause.holds d)

/-! ## mgo: the collection and the adapter's answers -/

/-- The value `mgo.Index` that both handlers declare. -/
structure Index where
  Key : List String
  Unique : Bool
  DropDups : Bool
  Background : Bool
  Sparse : Bool
  deriving DecidableEq, Repr

/-- The ledger: the documents of the collection `transactions`, in storage order. -/
structure Collection where
  docs : List Doc
  deriving DecidableEq, Repr

/-- What the storage adapter answers to the calls of one request. -/
structure Adapter where
  /-- The error of `EnsureIndex`, if it faults. -/
  EnsureIndex : Option String
  /-- The error of `Insert`, or the identifier the store assigns to a document that has none. -/
  Insert : Except String ObjectId
  /-- The error of `Find(query).All`, if it faults. -/
  Find : Option String
  /-- The error of `pipe.All`, if it faults. -/
  Pipe : Option String

/-- An adapter that does not fault and assigns the identifier `assigned`. -/
def Adapter.healthy (assigned : ObjectId) : Adapter := ⟨none, .ok assigned, none, none⟩

/-- The document written for a struct: `_id` is left out when empty and then assigned by the store. -/
def Transaction.toDoc (t : Transaction) (assigned : ObjectId) : Doc :=
  ⟨if t.Id = "" then assigned else t.Id, t.Sender, t.Receiver, t.Timestamp, t.Sum⟩

/-- A successful `Insert`: the document is added at the end of the collection. -/
def Collection.Insert (c : Collection) (assigned : ObjectId) (t : Transaction) : Collection :=
  ⟨c.docs ++ [t.toDoc assigned]⟩

/-- A successful `Find(query).All`: the matching documents, in storage order. -/
def Collection.Find (c : Collection) (query : Query) : List Doc :=
  c.docs.filter query.matches

/-- A BSON number as the aggregation returns it: an integer that fits 64 bits, or a double (a
floating-point number, whose value is not modelled). -/
inductive Number where
  | long (n : Int)
  | double
  deriving DecidableEq, Repr

/-- Whether an integer fits a signed 64-bit integer. -/
def fitsLong (n : Int) : Bool := decide (-(2 ^ 63) ≤ n ∧ n < 2 ^ 63)

/-- The number MongoDB returns for an exact integer result: "a 64-bit integer will be converted to
double if the result is not representable as a 64-bit integer". -/
def Number.ofInt (n : Int) : Number := if fitsLong n then .long n else .double

/-- One result document of the aggregation. -/
structure BalanceRow where
  _id : Int
  balance : Number
  deriving DecidableEq, Repr

/-- State of the `$sum` accumulator of one group: the exact total of the integer inputs, and
whether a double was among the inputs (the total is then a double). -/
structure GroupAcc where
  _id : Int
  total : Int
  widened : Bool
  deriving DecidableEq, Repr

/-- Adding one input to an accumulator. -/
def GroupAcc.add (g : GroupAcc) : Number → GroupAcc
  | .long n => ⟨g._id, g.total + n, g.widened⟩
  | .double => ⟨g._id, g.total, true⟩

/-- The value of a group when the stage ends: an integer if every input was one and the total
fits 64 bits, a double otherwise. -/
def GroupAcc.result (g : GroupAcc) : BalanceRow :=
  ⟨g._id, if g.widened then .double else Number.ofInt g.total⟩

/-- The accumulator step of `$group` with `$sum`: add `v` to the group of key `k`, opening the
group if it does not exist yet. -/
def addToGroup (k : Int) (v : Number) : List GroupAcc → List GroupAcc
  | [] => [GroupAcc.add ⟨k, 0, false⟩ v]
  | g :: gs => if g._id = k then g.add v :: gs else g :: addToGroup k v gs

/-- The stage `$group` with a `$sum` accumulator: one result per distinct key among the incoming
documents, holding the sum of the accumulated expression. -/
def group (key : Doc → Int) (term : Doc → Number) (docs : List Doc) : List BalanceRow :=
  (docs.foldl (fun acc d => addToGroup (key d) (term d) acc) []).map GroupAcc.result

/-- The accumulated expression
`$cond: [ {$eq: ["$sender", user]}, "$sum", {$multiply: ["$sum", -1]} ]`. -/
def balanceTerm (user : Int) (d : Doc) : Number :=
  if d.sender = user then Number.ofInt d.sum else Number.ofInt (d.sum * -1)

/-- The `$match` stage of the balance pipeline. -/
def balanceMatch (user since until_ : Int) : Query :=
  [.or [(.sender, user), (.receiver, user)], .gteLt .timestamp since until_]

/-- A successful run of the balance pipeline: `$match`, then `$group` with `_id: user`. -/
def Collection.Pipe (c : Collection) (user since until_ : Int) : List BalanceRow :=
  group (fun _ => user) (balanceTerm user) (c.docs.filter (balanceMatch user since until_).matches)

/-! ## net/http: what a handler produces -/

/-- The `error` values whose text the handlers send. -/
inductive Error where
  /-- Error of `json.NewDecoder(r.Body).Decode`. -/
  | decode (msg : String)
  /-- The value `errors.New("Invalid post parameters")`. -/
  | invalidPost
  /-- A `*strconv.NumError` with its `Func` and `Num`. -/
  | parse (func num : String)
  /-- Error returned by the storage adapter. -/
  | storage (msg : String)
  deriving DecidableEq, Repr

/-- What is written to the `http.ResponseWriter`. -/
inductive Body where
  | error (e : Error)
  | transaction (t : Transaction)
  | transactions (ts : List Transaction)
  | balance (rows : List BalanceRow)
  deriving DecidableEq, Repr

/-- Status line and body of the response. -/
structure Response where
  status : Nat
  body : Body
  deriving DecidableEq, Repr

def StatusOK : Nat := 200
def StatusNotFound : Nat := 404
def StatusUnprocessableEntity : Nat := 422
def StatusInternalServerError : Nat := 500

/-- How a handler ends: it returns after writing a response, or `log.Fatal` ends the process
(after `http.Error` wrote a response, where the source calls it first). -/
inductive Outcome where
  | reply (r : Response)
  | fatal (written : Option Response)
  deriving DecidableEq, Repr

/-- A call made to the storage adapter. -/
inductive Call where
  | EnsureIndex (index : Index)
  | Insert (t : Transaction)
  | Find (query : Query)
  | Pipe (user since until_ : Int)
  deriving DecidableEq, Repr

/-- Result of running a handler: its outcome, the adapter calls it issued in order, and the
ledger after it. -/
structure Run where
  outcome : Outcome
  calls : List Call
  transactions : Collection
  deriving DecidableEq, Repr

/-! ## The handlers of `main.go` -/

/-- The index both `TransactionsList` and `BalanceList` declare. -/
def index : Index := ⟨["sender", "receiver"], false, false, true, true⟩

/-- Model of `TransactionsCreate`; `body` is the result of decoding the request body. -/
def TransactionsCreate (a : Adapter) (transactions : Collection)
    (body : Except String Transaction) : Run :=
  match body with
  | .error err => ⟨.reply ⟨StatusNotFound, .error (.decode err)⟩, [], transactions⟩
  | .ok transaction =>
    /- Check for available post parameters -/
    if transaction.Timestamp = 0 ∨ transaction.Sum = 0 then
      ⟨.reply ⟨StatusUnprocessableEntity, .error .invalidPost⟩, [], transactions⟩
    else
      /- Insert to collection -/
      match a.Insert with
      | .error err =>
        ⟨.fatal (some ⟨StatusInternalServerError, .error (.storage err)⟩),
          [.Insert transaction], transactions⟩
      | .ok assigned =>
        /- Send back result -/
        ⟨.reply ⟨StatusOK, .transaction transaction⟩,
          [.Insert transaction], transactions.Insert assigned transaction⟩

/-- The guard `if params.Get(k) != "" { if v, err := parse(params.Get(k)); err == nil { ... } }`
of the optional parameters: the parsed value when the block is entered. -/
def optional (raw : String) (parse : String → Option Int) : Option Int :=
  if raw ≠ "" then parse raw else none

/-- The query document `TransactionsList` builds from the request parameters. -/
def listQuery ( local_ : Location) (params : Values) : Query :=
  /- Use user query param if it exists -/
  let query : Query := [.exists_ ._id true]
  let query :=
    match optional (params.Get "user") Atoi with
    | some user => query.set (.or [(.sender, user), (.receiver, user)])
    | none => query
  /- Use day query param if it exists -/
  let query :=
    match optional (params.Get "day") (fun s => ParseInt s 64) with
    | some day =>
      /- Convert timestamp to date and get start and end of its day -/
      let date := Unix local_ day
      let start := DateUTC date.Year date.Month date.Day 0 0 0
      let end_ := DateUTC date.Year date.Month date.Day 23 59 59
      query.set (.gteLt .timestamp start end_)
    | none => query
  /- Use threshold query param if it exists -/
  match optional (params.Get "threshold") Atoi with
  | some threshold => query.set (.gte .sum threshold)
  | none => query

/-- Model of `TransactionsList`. The index is declared inside the `user` block, before the other
parameters are read; a fault there ends the process without a response. -/
def TransactionsList ( local_ : Location) (a : Adapter) (transactions : Collection)
    (params : Values) : Run :=
  let declared : List Call :=
    match optional (params.Get "user") Atoi with
    | some _ => [.EnsureIndex index]
    | none => []
  if declared ≠ [] ∧ a.EnsureIndex.isSome then
    ⟨.fatal none, declared, transactions⟩
  else
    let query := listQuery local_ params
    /- Query -/
    match a.Find with
    | some err =>
      ⟨.fatal (some ⟨StatusInternalServerError, .error (.storage err)⟩),
        declared ++ [.Find query], transactions⟩
    | none =>
      /- Send back response -/
      ⟨.reply ⟨StatusOK, .transactions ((transactions.Find query).map Doc.toTransaction)⟩,
        declared ++ [.Find query], transactions⟩

/-- Model of `BalanceList`. -/
def BalanceList (a : Adapter) (transactions : Collection) (params : Values) : Run :=
  /- Use sparse compound index -/
  match a.EnsureIndex with
  | some _ => ⟨.fatal none, [.EnsureIndex index], transactions⟩
  | none =>
    /- Make sure query params exist -/
    match Atoi (params.Get "user") with
    | none =>
      ⟨.reply ⟨StatusUnprocessableEntity, .error (.parse "Atoi" (params.Get "user"))⟩,
        [.EnsureIndex index], transactions⟩
    | some user =>
      match ParseInt (params.Get "since") 64 with
      | none =>
        ⟨.reply ⟨StatusUnprocessableEntity, .error (.parse "ParseInt" (params.Get "since"))⟩,
          [.EnsureIndex index], transactions⟩
      | some since =>
        match ParseInt (params.Get "until") 64 with
        | none =>
          ⟨.reply ⟨StatusUnprocessableEntity, .error (.parse "ParseInt" (params.Get "until"))⟩,
            [.EnsureIndex index], transactions⟩
        | some until_ =>
          /- Aggregate -/
          match a.Pipe with
          | some err =>
            ⟨.fatal (some ⟨StatusInternalServerError, .error (.storage err)⟩),
              [.EnsureIndex index, .Pipe user since until_], transactions⟩
          | none =>
            /- Send back response -/
            ⟨.reply ⟨StatusOK, .balance (transactions.Pipe user since until_)⟩,
              [.EnsureIndex index, .Pipe user since until_], transactions⟩

/-- The ledger after a sequence of create requests, each with the adapter's answer to it. -/
def createAll (transactions : Collection) :
    List (Adapter × Except String Transaction) → Collection
  | [] => transactions
  | (a, body) :: rest => createAll (TransactionsCreate a transactions body).transactions rest

/-! ## Quantities used in the statements -/

/-- Specification side: a transaction is selected for `user` over `[since, until)` when the
account is its sender or its receiver and its timestamp lies in the window. -/
def selected (user since until_ : Int) (d : Doc) : Bool :=
  decide ((d.sender = user ∨ d.receiver = user) ∧ since ≤ d.timestamp ∧ d.timestamp < until_)

/-- Specification side: the total of `sum` over the transactions of `docs` sent by `user`. -/
def sent (user : Int) (docs : List Doc) : Int :=
  ((docs.filter (fun d => decide (d.sender = user))).map Doc.sum).sum

/-- Specification side: the total of `sum` over the transactions of `docs` received by `user`. -/
def received (user : Int) (docs : List Doc) : Int :=
  ((docs.filter (fun d => decide (d.receiver = user))).map Doc.sum).sum

/-- Specification side: the conjunction of the conditions of the list parameters that are
present, `range` being the bounds `(start, end)` derived from the day parameter. -/
def conjunction (user : Option Int) (range : Option (Int × Int)) (threshold : Option Int)
    (d : Doc) : Bool :=
  (match user with
    | none => true
    | some u => decide (d.sender = u ∨ d.receiver = u)) &&
  (match range with
    | none => true
    | some r => decide (r.1 ≤ d.timestamp ∧ d.timestamp < r.2)) &&
  (match threshold with
    | none => true
    | some t => decide (t ≤ d.sum))

/-- Specification side: what one selected transaction adds to the balance of `user`, as an exact
integer: `+sum` when `user` is the sender, `-sum` otherwise. -/
def contribution (user : Int) (d : Doc) : Int :=
  if d.sender = user then d.sum else -d.sum

/-- Start of the day the handler derives from the day parameter, in closed form: midnight UTC of
the calendar date that `day` has in the local zone, as an `int64`. -/
def dayStart ( local_ : Location) (day : Int) : Int :=
  wrap64 (86400 * ((Unix local_ day).abs / 86400) - unixToAbsolute)

/-- End of the day the handler derives from the day parameter, in closed form: 23:59:59 UTC of
the calendar date that `day` has in the local zone, as an `int64`. -/
def dayEnd ( local_ : Location) (day : Int) : Int :=
  wrap64 (86400 * ((Unix local_ day).abs / 86400) - unixToAbsolute + 86399)

/-! ## Calendar arithmetic -/

set_option maxHeartbeats 2000000 in
theorem doy_bounds (doe yoe : Int) (h0 : 0 ≤ doe) (h1 : doe ≤ 146096)
    (hy : yoe = (doe - doe / 1460 + doe / 36524 - doe / 146096) / 365) :
    0 ≤ yoe ∧ yoe ≤ 399 ∧ 0 ≤ doe - (365 * yoe + yoe / 4 - yoe / 100) ∧
      doe - (365 * yoe + yoe / 4 - yoe / 100) ≤ 365 := by
  subst hy
  obtain ⟨g, hg⟩ : ∃ g, g = doe / 1460 := ⟨_, rfl⟩
  have hg0 : 0 ≤ g := by omega
  have hg1 : g ≤ 100 := by omega
  have hi : doe / 36524 = 0 ∨ doe / 36524 = 1 ∨ doe / 36524 = 2 ∨ doe / 36524 = 3 ∨
      doe / 36524 = 4 := by omega
  rw [← hg]
  interval_cases g <;> omega

theorem days_civil_roundtrip (z : Int) :
    daysFromCivil (civilFromDays z).1 (civilFromDays z).2.1 (civilFromDays z).2.2 = z := by
  obtain ⟨era, hera⟩ : ∃ e, e = (z + 719468) / 146097 := ⟨_, rfl⟩
  obtain ⟨doe, hdoe⟩ : ∃ e, e = z + 719468 - era * 146097 := ⟨_, rfl⟩
  obtain ⟨yoe, hyoe⟩ : ∃ y, y = (doe - doe / 1460 + doe / 36524 - doe / 146096) / 365 := ⟨_, rfl⟩
  have hd0 : 0 ≤ doe := by omega
  have hd1 : doe ≤ 146096 := by omega
  obtain ⟨hy0, hy1, hdy0, hdy1⟩ := doy_bounds doe yoe hd0 hd1 hyoe
  obtain ⟨doy, hdoy⟩ : ∃ y, y = doe - (365 * yoe + yoe / 4 - yoe / 100) := ⟨_, rfl⟩
  obtain ⟨mp, hmp⟩ : ∃ m, m = (5 * doy + 2) / 153 := ⟨_, rfl⟩
  simp only [daysFromCivil, civilFromDays, ← hera, ← hdoe, ← hyoe, ← hdoy, ← hmp]
  rw [← hdoy] at hdy0 hdy1
  have hm0 : 0 ≤ mp := by omega
  have hm1 : mp ≤ 11 := by omega
  have hk : (yoe + era * 400) / 400 = era := by omega
  have h5 : yoe + era * 400 - era * 400 = yoe := by omega
  clear hyoe hera
  by_cases hlt : mp < 10
  · have h2 : ¬ (mp + 3 ≤ 2) := by omega
    have h3 : (2 : Int) < mp + 3 := by omega
    have h6 : mp + 3 - 3 = mp := by omega
    simp only [hlt, if_true, h2, if_false, h3, hk, h5, h6]
    omega
  · have h2 : mp - 9 ≤ 2 := by omega
    have h3 : ¬ ((2 : Int) < mp - 9) := by omega
    have h4 : yoe + era * 400 + 1 - 1 = yoe + era * 400 := by omega
    have h6 : mp - 9 + 9 = mp := by omega
    simp only [hlt, if_false, h2, if_true, h3, h4, hk, h5, h6]
    omega

/-- The instant `time.Date(date.Year(), date.Month(), date.Day(), h, m, s, 0, time.UTC)` built
from `date := time.Unix(day, 0)`: the date is the one `day` has in the local zone. -/
theorem date_of_unix ( local_ : Location) (day h m s : Int) :
    DateUTC (Unix local_ day).Year (Unix local_ day).Month (Unix local_ day).Day h m s
      = wrap64 (86400 * ((Unix local_ day).abs / 86400) - unixToAbsolute
          + (h * 3600 + m * 60 + s)) := by
  simp only [DateUTC, Time.Year, Time.Month, Time.Day, Time.civil, days_civil_roundtrip]
  congr 1
  simp only [unixToAbsolute]
  omega

/-! ## Parameters and queries -/

theorem ParseInt_empty (bitSize : Nat) : ParseInt "" bitSize = none := rfl

theorem optional_eq (raw : String) (bitSize : Nat) :
    optional raw (fun s => ParseInt s bitSize) = ParseInt raw bitSize := by
  unfold optional
  split_ifs with h
  · rfl
  · rw [not_not.mp h, ParseInt_empty]

theorem optional_Atoi (raw : String) : optional raw Atoi = Atoi raw :=
  optional_eq raw IntSize

theorem Get_Del_self (params : Values) (key : String) : Values.Get (Values.Del params key) key = "" := by
  induction params with
  | nil => rfl
  | cons p rest ih =>
    obtain ⟨k, v⟩ := p
    by_cases h : k = key
    · simpa [Values.Del, List.filter_cons, h] using ih
    · simpa [Values.Del, List.filter_cons, h, Values.Get] using ih

theorem Get_Del_other (params : Values) (key other : String) (hne : other ≠ key) :
    Values.Get (Values.Del params key) other = Values.Get params other := by
  induction params with
  | nil => rfl
  | cons p rest ih =>
    obtain ⟨k, v⟩ := p
    by_cases h : k = key
    · have hk : k ≠ other := fun e => hne (e ▸ h)
      simpa [Values.Del, List.filter_cons, h, Values.Get, hk, hne.symm] using ih
    · by_cases h2 : k = other
      · subst h2
        simp [Values.Del, List.filter_cons, hne, Values.Get]
      · simpa [Values.Del, List.filter_cons, h, Values.Get, h2] using ih

/-! ## TransactionsCreate -/

/-- C1: a candidate whose timestamp or sum is zero is answered with the unprocessable-entity
error, no insert is issued, and the ledger after the call is the ledger before it. -/
theorem create_rejects_zero_fields (a : Adapter) (transactions : Collection) (T : Transaction)
    (h : T.Timestamp = 0 ∨ T.Sum = 0) :
    TransactionsCreate a transactions (.ok T)
      = ⟨.reply ⟨StatusUnprocessableEntity, .error .invalidPost⟩, [], transactions⟩ := by
  simp [TransactionsCreate, h]

theorem create_rejects_zero_fields_witness :
    ((0 : Int) = 0 ∨ (5 : Int) = 0) ∧
    TransactionsCreate (Adapter.healthy "id2") ⟨[⟨"id1", 1, 2, 10, 50⟩]⟩ (.ok ⟨"", 3, 1, 0, 5⟩)
      = ⟨.reply ⟨StatusUnprocessableEntity, .error .invalidPost⟩, [],
          ⟨[⟨"id1", 1, 2, 10, 50⟩]⟩⟩ :=
  ⟨Or.inl rfl, create_rejects_zero_fields _ _ ⟨"", 3, 1, 0, 5⟩ (Or.inl rfl)⟩

theorem list_no_params ( local_ : Location) (b : Adapter) (transactions : Collection)
    (hfind : b.Find = none) :
    TransactionsList local_ b transactions []
      = ⟨.reply ⟨StatusOK, .transactions (transactions.docs.map
            (fun d => (⟨d._id, d.sender, d.receiver, d.timestamp, d.sum⟩ : Transaction)))⟩,
          [.Find [.exists_ ._id true]], transactions⟩ := by
  have hq : listQuery local_ [] = [.exists_ ._id true] := rfl
  have hall : transactions.docs.filter (Query.matches [.exists_ ._id true]) = transactions.docs := by
    apply List.filter_eq_self.mpr
    intro d _
    rfl
  have hd : optional (Values.Get [] "user") Atoi = none := rfl
  have hmap : transactions.docs.map Doc.toTransaction = transactions.docs.map
      (fun d => (⟨d._id, d.sender, d.receiver, d.timestamp, d.sum⟩ : Transaction)) := rfl
  simp only [TransactionsList, hd, hq, hfind, Collection.Find, hall, hmap]
  simp

/-- C2: a candidate with non-zero timestamp and sum, on an adapter whose insert does not fault, is
answered with status 200 and the candidate itself, so with its sender, receiver, timestamp and
sum; exactly one document is added to the ledger, holding those four values under the candidate's
identifier, or under the one the store assigns when the candidate has none; and a following list
without parameters returns the records stored before, field by field, followed by the record
with that identifier and the four values of the candidate. -/
theorem create_valid_persists ( local_ : Location) (a b : Adapter) (transactions : Collection)
    (assigned : ObjectId) (T : Transaction)
    (ht : T.Timestamp ≠ 0) (hs : T.Sum ≠ 0)
    (hins : a.Insert = .ok assigned) (hfind : b.Find = none) :
    (TransactionsCreate a transactions (.ok T)).outcome = .reply ⟨StatusOK, .transaction T⟩ ∧
      (TransactionsCreate a transactions (.ok T)).calls = [.Insert T] ∧
      (TransactionsCreate a transactions (.ok T)).transactions.docs
        = transactions.docs
          ++ [⟨if T.Id = "" then assigned else T.Id, T.Sender, T.Receiver, T.Timestamp, T.Sum⟩] ∧
      (TransactionsList local_ b transactions []).outcome
        = .reply ⟨StatusOK, .transactions (transactions.docs.map
            (fun d => (⟨d._id, d.sender, d.receiver, d.timestamp, d.sum⟩ : Transaction)))⟩ ∧
      (TransactionsList local_ b (TransactionsCreate a transactions (.ok T)).transactions
          []).outcome
        = .reply ⟨StatusOK, .transactions
            (transactions.docs.map
                (fun d => (⟨d._id, d.sender, d.receiver, d.timestamp, d.sum⟩ : Transaction))
              ++ [⟨if T.Id = "" then assigned else T.Id, T.Sender, T.Receiver, T.Timestamp,
                    T.Sum⟩])⟩ := by
  refine ⟨?_, ?_, ?_, ?_, ?_⟩
  · simp [TransactionsCreate, ht, hs, hins]
  · simp [TransactionsCreate, ht, hs, hins]
  · simp [TransactionsCreate, ht, hs, hins, Collection.Insert, Transaction.toDoc]
  · rw [list_no_params local_ b _ hfind]
  · rw [list_no_params local_ b _ hfind]
    simp [TransactionsCreate, ht, hs, hins, Collection.Insert, Transaction.toDoc]

theorem create_valid_persists_witness :
    (TransactionsCreate (Adapter.healthy "id2") ⟨[⟨"id1", 1, 2, 10, 50⟩]⟩
          (.ok ⟨"", 3, 1, 20, 200⟩)).outcome
        = .reply ⟨StatusOK, .transaction ⟨"", 3, 1, 20, 200⟩⟩ ∧
      (TransactionsCreate (Adapter.healthy "id2") ⟨[⟨"id1", 1, 2, 10, 50⟩]⟩
          (.ok ⟨"", 3, 1, 20, 200⟩)).calls = [.Insert ⟨"", 3, 1, 20, 200⟩] ∧
      (TransactionsCreate (Adapter.healthy "id2") ⟨[⟨"id1", 1, 2, 10, 50⟩]⟩
          (.ok ⟨"", 3, 1, 20, 200⟩)).transactions.docs
        = [⟨"id1", 1, 2, 10, 50⟩, ⟨"id2", 3, 1, 20, 200⟩] ∧
      (TransactionsList UTC (Adapter.healthy "id3") ⟨[⟨"id1", 1, 2, 10, 50⟩]⟩ []).outcome
        = .reply ⟨StatusOK, .transactions [⟨"id1", 1, 2, 10, 50⟩]⟩ ∧
      (TransactionsList UTC (Adapter.healthy "id3")
          (TransactionsCreate (Adapter.healthy "id2") ⟨[⟨"id1", 1, 2, 10, 50⟩]⟩
            (.ok ⟨"", 3, 1, 20, 200⟩)).transactions []).outcome
        = .reply ⟨StatusOK, .transactions
            [⟨"id1", 1, 2, 10, 50⟩, ⟨"id2", 3, 1, 20, 200⟩]⟩ :=
  create_valid_persists UTC (Adapter.healthy "id2") (Adapter.healthy "id3")
    ⟨[⟨"id1", 1, 2, 10, 50⟩]⟩ "id2" ⟨"", 3, 1, 20, 200⟩ (by decide) (by decide) rfl rfl

theorem create_keeps (P : Doc → Prop) (a : Adapter) (transactions : Collection)
    (body : Except String Transaction)
    (hnew : ∀ (T : Transaction) (assigned : ObjectId),
      T.Timestamp ≠ 0 → T.Sum ≠ 0 → P (T.toDoc assigned))
    (hold : ∀ d ∈ transactions.docs, P d) :
    ∀ d ∈ (TransactionsCreate a transactions body).transactions.docs, P d := by
  unfold TransactionsCreate
  cases body with
  | error err => exact hold
  | ok T =>
    by_cases h : T.Timestamp = 0 ∨ T.Sum = 0
    · simpa [h] using hold
    · have h0 := not_or.mp h
      cases hi : a.Insert with
      | error err => simpa [h, hi] using hold
      | ok assigned =>
        intro d hd
        simp only [h, if_false, hi, Collection.Insert, List.mem_append, List.mem_singleton] at hd
        rcases hd with hd | hd
        · exact hold d hd
        · exact hd ▸ hnew T assigned h0.1 h0.2

theorem createAll_keeps (P : Doc → Prop)
    (hnew : ∀ (T : Transaction) (assigned : ObjectId),
      T.Timestamp ≠ 0 → T.Sum ≠ 0 → P (T.toDoc assigned))
    (reqs : List (Adapter × Except String Transaction)) (transactions : Collection)
    (hold : ∀ d ∈ transactions.docs, P d) :
    ∀ d ∈ (createAll transactions reqs).docs, P d := by
  induction reqs generalizing transactions with
  | nil => exact hold
  | cons req rest ih =>
    obtain ⟨a, body⟩ := req
    exact ih _ (create_keeps P a transactions body hnew hold)

/-- C10, as the code has it: starting from the empty ledger, after any sequence of create calls
every stored transaction has a sum different from zero. -/
theorem created_sums_nonzero (reqs : List (Adapter × Except String Transaction)) :
    ∀ d ∈ (createAll ⟨[]⟩ reqs).docs, d.sum ≠ 0 :=
  createAll_keeps (fun d => d.sum ≠ 0) (fun _ _ _ hs => hs) reqs ⟨[]⟩
    (fun _ h => absurd h (List.not_mem_nil _))

theorem created_sums_nonzero_witness :
    (⟨"id1", 1, 2, 1, -5⟩ : Doc)
        ∈ (createAll ⟨[]⟩ [(Adapter.healthy "id1", .ok ⟨"", 1, 2, 1, -5⟩)]).docs ∧
      (⟨"id1", 1, 2, 1, -5⟩ : Doc).sum ≠ 0 :=
  ⟨by decide, created_sums_nonzero [(Adapter.healthy "id1", .ok ⟨"", 1, 2, 1, -5⟩)]
    ⟨"id1", 1, 2, 1, -5⟩ (by decide)⟩

/-- C10 fails as stated: a create call with sum `-5` on the empty ledger is accepted and stored. -/
theorem create_accepts_negative_sum :
    (TransactionsCreate (Adapter.healthy "id1") ⟨[]⟩ (.ok ⟨"", 1, 2, 1, -5⟩)).outcome
        = .reply ⟨StatusOK, .transaction ⟨"", 1, 2, 1, -5⟩⟩ ∧
    (createAll ⟨[]⟩ [(Adapter.healthy "id1", .ok ⟨"", 1, 2, 1, -5⟩)]).docs
        = [⟨"id1", 1, 2, 1, -5⟩] ∧
    ¬ (∀ d ∈ (createAll ⟨[]⟩ [(Adapter.healthy "id1", .ok ⟨"", 1, 2, 1, -5⟩)]).docs,
        0 < d.sum) := by
  decide

/-! ## BalanceList -/

/-- C6 fails as stated: a balance request without any parameter has already declared the index
on the storage adapter when it is answered with the unprocessable-entity error. -/
theorem balance_declares_index_first :
    Values.Get [] "user" = "" ∧
    (BalanceList (Adapter.healthy "id1") ⟨[]⟩ []).outcome
      = .reply ⟨StatusUnprocessableEntity, .error (.parse "Atoi" "")⟩ ∧
    (BalanceList (Adapter.healthy "id1") ⟨[]⟩ []).calls = [.EnsureIndex index] ∧
    (BalanceList (Adapter.healthy "id1") ⟨[]⟩ []).calls ≠ [] := by
  decide

/-- C6, as the code has it: when user, since or until is missing or does not parse, the handler
issues exactly one adapter call, the index declaration, and leaves the ledger unchanged, whatever
the adapter answers. If the declaration does not fault, the request is answered with the
unprocessable-entity error of the first parameter that fails, in the order user, since, until;
if it faults, the process ends without an answer. -/
theorem balance_missing_parameter (a : Adapter) (transactions : Collection) (params : Values)
    (h : (params.Get "user" = "" ∨ Atoi (params.Get "user") = none) ∨
         (params.Get "since" = "" ∨ ParseInt (params.Get "since") 64 = none) ∨
         (params.Get "until" = "" ∨ ParseInt (params.Get "until") 64 = none)) :
    (BalanceList a transactions params).calls = [.EnsureIndex index] ∧
    (BalanceList a transactions params).transactions = transactions ∧
    (a.EnsureIndex = none →
      (BalanceList a transactions params).outcome
        = .reply ⟨StatusUnprocessableEntity, .error
            (if Atoi (params.Get "user") = none then .parse "Atoi" (params.Get "user")
             else if ParseInt (params.Get "since") 64 = none then
               .parse "ParseInt" (params.Get "since")
             else .parse "ParseInt" (params.Get "until"))⟩) ∧
    (a.EnsureIndex ≠ none → (BalanceList a transactions params).outcome = .fatal none) := by
  have h' : Atoi (params.Get "user") = none ∨ ParseInt (params.Get "since") 64 = none ∨
      ParseInt (params.Get "until") 64 = none := by
    rcases h with (h | h) | (h | h) | (h | h)
    · left; rw [h]; rfl
    · left; exact h
    · right; left; rw [h]; rfl
    · right; left; exact h
    · right; right; rw [h]; rfl
    · right; right; exact h
  unfold BalanceList
  cases hidx : a.EnsureIndex with
  | some err => simp
  | none =>
    cases hu : Atoi (params.Get "user") with
    | none => simp
    | some user =>
      cases hs : ParseInt (params.Get "since") 64 with
      | none => simp
      | some since =>
        cases ht : ParseInt (params.Get "until") 64 with
        | none => simp
        | some until_ =>
          rw [hu, hs, ht] at h'
          simp at h'

theorem balance_missing_parameter_witness :
    (BalanceList (Adapter.healthy "id1") ⟨[⟨"id1", 1, 2, 10, 50⟩]⟩
        [("user", "1"), ("since", "abc")]).calls = [.EnsureIndex index] ∧
    (BalanceList (Adapter.healthy "id1") ⟨[⟨"id1", 1, 2, 10, 50⟩]⟩
        [("user", "1"), ("since", "abc")]).transactions = ⟨[⟨"id1", 1, 2, 10, 50⟩]⟩ ∧
    (BalanceList (Adapter.healthy "id1") ⟨[⟨"id1", 1, 2, 10, 50⟩]⟩
        [("user", "1"), ("since", "abc")]).outcome
      = .reply ⟨StatusUnprocessableEntity, .error (.parse "ParseInt" "abc")⟩ ∧
    (BalanceList ⟨some "no reachable servers", .ok "id1", none, none⟩
        ⟨[⟨"id1", 1, 2, 10, 50⟩]⟩ [("user", "1"), ("since", "abc")]).outcome = .fatal none :=
  ⟨(balance_missing_parameter (Adapter.healthy "id1") ⟨[⟨"id1", 1, 2, 10, 50⟩]⟩
      [("user", "1"), ("since", "abc")] (Or.inr (Or.inl (Or.inr (by decide))))).1,
   (balance_missing_parameter (Adapter.healthy "id1") ⟨[⟨"id1", 1, 2, 10, 50⟩]⟩
      [("user", "1"), ("since", "abc")] (Or.inr (Or.inl (Or.inr (by decide))))).2.1,
   ((balance_missing_parameter (Adapter.healthy "id1") ⟨[⟨"id1", 1, 2, 10, 50⟩]⟩
      [("user", "1"), ("since", "abc")] (Or.inr (Or.inl (Or.inr (by decide))))).2.2.1
        rfl).trans (by decide),
   (balance_missing_parameter ⟨some "no reachable servers", .ok "id1", none, none⟩
      ⟨[⟨"id1", 1, 2, 10, 50⟩]⟩ [("user", "1"), ("since", "abc")]
      (Or.inr (Or.inl (Or.inr (by decide))))).2.2.2 (by decide)⟩

theorem foldl_addToGroup_const (k : Int) (term : Doc → Number) (docs : List Doc) (g : GroupAcc)
    (hg : g._id = k) :
    docs.foldl (fun rows d => addToGroup k (term d) rows) [g]
      = [docs.foldl (fun acc d => acc.add (term d)) g] := by
  induction docs generalizing g with
  | nil => rfl
  | cons d ds ih =>
    have hid : (g.add (term d))._id = k := by
      cases term d <;> exact hg
    simp only [List.foldl_cons, addToGroup, hg, if_true]
    exact ih _ hid

theorem group_const_nil (k : Int) (term : Doc → Number) : group (fun _ => k) term [] = [] := rfl

theorem group_const_of_ne_nil (k : Int) (term : Doc → Number) (docs : List Doc)
    (h : docs ≠ []) :
    group (fun _ => k) term docs
      = [(docs.foldl (fun (acc : GroupAcc) d => acc.add (term d)) ⟨k, 0, false⟩).result] := by
  cases docs with
  | nil => exact absurd rfl h
  | cons d ds =>
    have hid : (GroupAcc.add ⟨k, 0, false⟩ (term d))._id = k := by
      cases term d <;> rfl
    simp only [group, List.foldl_cons, addToGroup]
    rw [foldl_addToGroup_const k term ds _ hid]
    rfl

theorem foldl_add_id (term : Doc → Number) (docs : List Doc) (g : GroupAcc) :
    (docs.foldl (fun acc d => acc.add (term d)) g)._id = g._id := by
  induction docs generalizing g with
  | nil => rfl
  | cons d ds ih =>
    simp only [List.foldl_cons]
    rw [ih]
    cases term d <;> rfl

theorem foldl_add_long (term : Doc → Number) (exact : Doc → Int) (docs : List Doc)
    (g : GroupAcc) (h : ∀ d ∈ docs, term d = .long (exact d)) :
    docs.foldl (fun acc d => acc.add (term d)) g
      = ⟨g._id, g.total + (docs.map exact).sum, g.widened⟩ := by
  induction docs generalizing g with
  | nil => simp
  | cons d ds ih =>
    simp only [List.foldl_cons, List.map_cons, List.sum_cons]
    rw [ih _ (fun x hx => h x (List.mem_cons_of_mem _ hx)), h d (List.mem_cons_self _ _)]
    simp only [GroupAcc.add, add_assoc]

theorem balanceTerm_long (user : Int) (d : Doc) (h : fitsLong (contribution user d) = true) :
    balanceTerm user d = .long (contribution user d) := by
  unfold balanceTerm contribution at *
  by_cases hs : d.sender = user
  · simp only [hs, if_true] at h ⊢
    simp [Number.ofInt, h]
  · simp only [hs, if_false] at h ⊢
    have e : d.sum * -1 = -d.sum := by omega
    rw [e]
    simp [Number.ofInt, h]

theorem balanceMatch_iff (user since until_ : Int) (d : Doc) :
    (balanceMatch user since until_).matches d = true ↔
      (d.sender = user ∨ d.receiver = user) ∧ since ≤ d.timestamp ∧ d.timestamp < until_ := by
  simp [balanceMatch, Query.matches, Clause.holds, Doc.num]

theorem filter_balanceMatch (user since until_ : Int) (docs : List Doc) :
    docs.filter (balanceMatch user since until_).matches
      = docs.filter (selected user since until_) := by
  apply List.filter_congr
  intro d _
  rw [Bool.eq_iff_iff, balanceMatch_iff]
  simp [selected]

theorem balance_run (a : Adapter) (transactions : Collection) (params : Values)
    (user since until_ : Int)
    (hidx : a.EnsureIndex = none) (hpipe : a.Pipe = none)
    (hu : Atoi (params.Get "user") = some user)
    (hs : ParseInt (params.Get "since") 64 = some since)
    (ht : ParseInt (params.Get "until") 64 = some until_) :
    BalanceList a transactions params
      = ⟨.reply ⟨StatusOK, .balance (transactions.Pipe user since until_)⟩,
          [.EnsureIndex index, .Pipe user since until_], transactions⟩ := by
  simp [BalanceList, hidx, hpipe, hu, hs, ht]

/-- The pipeline on a ledger whose selected contributions all fit 64 bits: nothing when nothing
is selected, else one row holding the exact total if it fits 64 bits and a double if not. -/
theorem Pipe_of_fits (docs : List Doc) (user since until_ : Int)
    (hfit : ∀ d ∈ docs, selected user since until_ d = true →
      fitsLong (contribution user d) = true) :
    Collection.Pipe ⟨docs⟩ user since until_
      = if docs.filter (selected user since until_) = [] then []
        else [⟨user, Number.ofInt
          (((docs.filter (selected user since until_)).map (contribution user)).sum)⟩] := by
  simp only [Collection.Pipe, filter_balanceMatch]
  split_ifs with hnil
  · rw [hnil, group_const_nil]
  · rw [group_const_of_ne_nil _ _ _ hnil,
      foldl_add_long (balanceTerm user) (contribution user)]
    · simp [GroupAcc.result]
    · intro d hd
      exact balanceTerm_long user d
        (hfit d (List.mem_filter.mp hd).1 (List.mem_filter.mp hd).2)

theorem sum_contribution (user : Int) (docs : List Doc)
    (hinv : ∀ d ∈ docs, d.sender = user ∨ d.receiver = user)
    (hself : ∀ d ∈ docs, ¬ (d.sender = user ∧ d.receiver = user)) :
    (docs.map (contribution user)).sum = sent user docs - received user docs := by
  induction docs with
  | nil => rfl
  | cons d ds ih =>
    have ih' := ih (fun x hx => hinv x (List.mem_cons_of_mem _ hx))
      (fun x hx => hself x (List.mem_cons_of_mem _ hx))
    have h1 := hinv d (List.mem_cons_self _ _)
    have h2 := hself d (List.mem_cons_self _ _)
    simp only [sent, received] at ih' ⊢
    by_cases hsnd : d.sender = user
    · have hrcv : ¬ d.receiver = user := fun h => h2 ⟨hsnd, h⟩
      simp only [List.map_cons, List.sum_cons, contribution, hsnd, if_true, List.filter_cons,
        decide_True, hrcv, decide_False, Bool.false_eq_true, if_false] at ih' ⊢
      omega
    · have hrcv : d.receiver = user := h1.resolve_left hsnd
      simp only [List.map_cons, List.sum_cons, contribution, hsnd, if_false, List.filter_cons,
        decide_True, hrcv, decide_False, Bool.false_eq_true, if_true] at ih' ⊢
      omega

/-- C3 fails as stated: account 1 sent 9223372036854775807 and 2 inside the window and received
nothing, so S - R = 9223372036854775809; the sum does not fit a 64-bit integer and the aggregation
answers with a double, not with the integer S - R. -/
theorem balance_beyond_64_bits :
    (BalanceList (Adapter.healthy "id9")
        ⟨[⟨"id1", 1, 2, 5, 9223372036854775807⟩, ⟨"id2", 1, 3, 6, 2⟩]⟩
        [("user", "1"), ("since", "0"), ("until", "10")]).outcome
      = .reply ⟨StatusOK, .balance [⟨1, .double⟩]⟩ ∧
    sent 1 [⟨"id1", 1, 2, 5, 9223372036854775807⟩, ⟨"id2", 1, 3, 6, 2⟩]
      - received 1 [⟨"id1", 1, 2, 5, 9223372036854775807⟩, ⟨"id2", 1, 3, 6, 2⟩]
      = 9223372036854775809 ∧
    (BalanceList (Adapter.healthy "id9")
        ⟨[⟨"id1", 1, 2, 5, 9223372036854775807⟩, ⟨"id2", 1, 3, 6, 2⟩]⟩
        [("user", "1"), ("since", "0"), ("until", "10")]).outcome
      ≠ .reply ⟨StatusOK, .balance [⟨1, .long 9223372036854775809⟩]⟩ := by
  decide

/-- C3, as the code has it: when at least one stored transaction is selected for U over
`[since, until)`, no selected transaction is a self-transfer of U, and the contribution of every
selected transaction and the total S - R fit a signed 64-bit integer, the balance request is
answered with the single integer value S - R, S the total sent by U and R the total received by
U among the selected transactions. -/
theorem balance_sent_minus_received (a : Adapter) (transactions : Collection) (params : Values)
    (U since until_ : Int)
    (hidx : a.EnsureIndex = none) (hpipe : a.Pipe = none)
    (hu : Atoi (params.Get "user") = some U)
    (hs : ParseInt (params.Get "since") 64 = some since)
    (ht : ParseInt (params.Get "until") 64 = some until_)
    (hsel : ∃ d ∈ transactions.docs, selected U since until_ d = true)
    (hself : ∀ d ∈ transactions.docs, selected U since until_ d = true →
      ¬ (d.sender = U ∧ d.receiver = U))
    (hfit : ∀ d ∈ transactions.docs, selected U since until_ d = true →
      fitsLong (contribution U d) = true)
    (htotal : fitsLong (sent U (transactions.docs.filter (selected U since until_))
      - received U (transactions.docs.filter (selected U since until_))) = true) :
    (BalanceList a transactions params).outcome
      = .reply ⟨StatusOK, .balance
          [⟨U, .long (sent U (transactions.docs.filter (selected U since until_))
                - received U (transactions.docs.filter (selected U since until_)))⟩]⟩ := by
  rw [balance_run a transactions params U since until_ hidx hpipe hu hs ht]
  obtain ⟨d, hd, hdsel⟩ := hsel
  have hne : transactions.docs.filter (selected U since until_) ≠ [] :=
    List.ne_nil_of_mem (List.mem_filter.mpr ⟨hd, hdsel⟩)
  have hsum : ((transactions.docs.filter (selected U since until_)).map (contribution U)).sum
      = sent U (transactions.docs.filter (selected U since until_))
        - received U (transactions.docs.filter (selected U since until_)) := by
    apply sum_contribution
    · intro x hx
      have hx2 := (List.mem_filter.mp hx).2
      simp only [selected, decide_eq_true_eq] at hx2
      exact hx2.1
    · intro x hx
      exact hself x (List.mem_filter.mp hx).1 (List.mem_filter.mp hx).2
  have hpipe2 := Pipe_of_fits transactions.docs U since until_ hfit
  simp only [hne, if_false, hsum, Number.ofInt, htotal, if_true] at hpipe2
  simp only [hpipe2]

theorem balance_sent_minus_received_witness :
    (BalanceList (Adapter.healthy "id9")
        ⟨[⟨"id1", 1, 2, 10, 50⟩, ⟨"id2", 3, 1, 20, 200⟩, ⟨"id3", 1, 4, 99, 7⟩,
          ⟨"id4", 2, 3, 15, 9⟩]⟩
        [("user", "1"), ("since", "10"), ("until", "99")]).outcome
      = .reply ⟨StatusOK, .balance [⟨1, .long (-150)⟩]⟩ :=
  (balance_sent_minus_received (Adapter.healthy "id9")
      ⟨[⟨"id1", 1, 2, 10, 50⟩, ⟨"id2", 3, 1, 20, 200⟩, ⟨"id3", 1, 4, 99, 7⟩,
        ⟨"id4", 2, 3, 15, 9⟩]⟩
      [("user", "1"), ("since", "10"), ("until", "99")] 1 10 99 rfl rfl
      (by decide) (by decide) (by decide) (by decide) (by decide) (by decide)
      (by decide)).trans (by decide)

/-- C7: the result sequence of a balance request is empty when no stored transaction is selected
for U over `[since, until)`, and has exactly one element, keyed by U, when at least one is
selected, whatever the net value. -/
theorem balance_result_shape (a : Adapter) (transactions : Collection) (params : Values)
    (U since until_ : Int)
    (hidx : a.EnsureIndex = none) (hpipe : a.Pipe = none)
    (hu : Atoi (params.Get "user") = some U)
    (hs : ParseInt (params.Get "since") 64 = some since)
    (ht : ParseInt (params.Get "until") 64 = some until_) :
    ((∀ d ∈ transactions.docs, selected U since until_ d = false) →
      (BalanceList a transactions params).outcome = .reply ⟨StatusOK, .balance []⟩) ∧
    ((∃ d ∈ transactions.docs, selected U since until_ d = true) →
      ∃ value : Number, (BalanceList a transactions params).outcome
        = .reply ⟨StatusOK, .balance [⟨U, value⟩]⟩) := by
  rw [balance_run a transactions params U since until_ hidx hpipe hu hs ht]
  simp only [Collection.Pipe, filter_balanceMatch]
  constructor
  · intro hnone
    have hnil : transactions.docs.filter (selected U since until_) = [] := by
      apply List.filter_eq_nil_iff.mpr
      intro d hd
      simp [hnone d hd]
    rw [hnil, group_const_nil]
  · rintro ⟨d, hd, hdsel⟩
    have hne : transactions.docs.filter (selected U since until_) ≠ [] :=
      List.ne_nil_of_mem (List.mem_filter.mpr ⟨hd, hdsel⟩)
    rw [group_const_of_ne_nil _ _ _ hne]
    simp only [GroupAcc.result, foldl_add_id]
    exact ⟨_, rfl⟩

theorem balance_result_shape_witness :
    (BalanceList (Adapter.healthy "id9") ⟨[⟨"id1", 2, 3, 10, 50⟩]⟩
        [("user", "1"), ("since", "0"), ("until", "100")]).outcome
      = .reply ⟨StatusOK, .balance []⟩ ∧
    ∃ value : Number, (BalanceList (Adapter.healthy "id9")
        ⟨[⟨"id1", 1, 2, 10, 50⟩, ⟨"id2", 3, 1, 20, 50⟩]⟩
        [("user", "1"), ("since", "0"), ("until", "100")]).outcome
      = .reply ⟨StatusOK, .balance [⟨1, value⟩]⟩ :=
  ⟨(balance_result_shape (Adapter.healthy "id9") ⟨[⟨"id1", 2, 3, 10, 50⟩]⟩
      [("user", "1"), ("since", "0"), ("until", "100")] 1 0 100 rfl rfl
      (by decide) (by decide) (by decide)).1 (by decide),
   (balance_result_shape (Adapter.healthy "id9")
      ⟨[⟨"id1", 1, 2, 10, 50⟩, ⟨"id2", 3, 1, 20, 50⟩]⟩
      [("user", "1"), ("since", "0"), ("until", "100")] 1 0 100 rfl rfl
      (by decide) (by decide) (by decide)).2 (by decide)⟩

/-- C8 fails as stated: adding the self-transfer `1 → 1` of sum 10 inside the window moves the
balance of account 1 from 3 to 13. -/
theorem self_transfer_changes_balance :
    (BalanceList (Adapter.healthy "id9") ⟨[⟨"id1", 1, 2, 6, 3⟩]⟩
        [("user", "1"), ("since", "0"), ("until", "10")]).outcome
      = .reply ⟨StatusOK, .balance [⟨1, .long 3⟩]⟩ ∧
    (BalanceList (Adapter.healthy "id9") ⟨[⟨"id1", 1, 2, 6, 3⟩, ⟨"id2", 1, 1, 5, 10⟩]⟩
        [("user", "1"), ("since", "0"), ("until", "10")]).outcome
      = .reply ⟨StatusOK, .balance [⟨1, .long 13⟩]⟩ := by
  decide

/-- C8, as the code has it: a stored self-transfer of U inside the window is counted once, with
the sign of the sender branch. Let `value` be the exact total of the contributions of the other
selected transactions. When every selected contribution, `value` and `value + sum` fit a signed
64-bit integer, the ledger with the self-transfer yields the single integer `value + sum`, and
the ledger without it yields the single integer `value`, or the empty result and `value = 0`. -/
theorem self_transfer_counts_as_sent (a : Adapter) (before after : List Doc) (d : Doc)
    (params : Values) (U since until_ value : Int)
    (hidx : a.EnsureIndex = none) (hpipe : a.Pipe = none)
    (hu : Atoi (params.Get "user") = some U)
    (hs : ParseInt (params.Get "since") 64 = some since)
    (ht : ParseInt (params.Get "until") 64 = some until_)
    (hself : d.sender = U ∧ d.receiver = U)
    (hwin : since ≤ d.timestamp ∧ d.timestamp < until_)
    (hvalue : value
      = (((before ++ after).filter (selected U since until_)).map (contribution U)).sum)
    (hfit : ∀ x ∈ before ++ d :: after, selected U since until_ x = true →
      fitsLong (contribution U x) = true)
    (hwithout : fitsLong value = true) (hwith : fitsLong (value + d.sum) = true) :
    (BalanceList a ⟨before ++ d :: after⟩ params).outcome
      = .reply ⟨StatusOK, .balance [⟨U, .long (value + d.sum)⟩]⟩ ∧
    ((BalanceList a ⟨before ++ after⟩ params).outcome
        = .reply ⟨StatusOK, .balance [⟨U, .long value⟩]⟩ ∨
      ((BalanceList a ⟨before ++ after⟩ params).outcome = .reply ⟨StatusOK, .balance []⟩ ∧
        value = 0)) := by
  rw [balance_run a _ params U since until_ hidx hpipe hu hs ht,
    balance_run a _ params U since until_ hidx hpipe hu hs ht]
  have hd : selected U since until_ d = true := by
    simp [selected, hself.1, hwin.1, hwin.2]
  have hterm : contribution U d = d.sum := by simp [contribution, hself.1]
  have hfit2 : ∀ x ∈ before ++ after, selected U since until_ x = true →
      fitsLong (contribution U x) = true := by
    intro x hx
    apply hfit x
    rcases List.mem_append.mp hx with h | h
    · exact List.mem_append_left _ h
    · exact List.mem_append_right _ (List.mem_cons_of_mem _ h)
  rw [Pipe_of_fits _ U since until_ hfit, Pipe_of_fits _ U since until_ hfit2]
  have hne : (before ++ d :: after).filter (selected U since until_) ≠ [] :=
    List.ne_nil_of_mem (List.mem_filter.mpr ⟨by simp, hd⟩)
  have hsum : (((before ++ d :: after).filter (selected U since until_)).map
      (contribution U)).sum = value + d.sum := by
    rw [hvalue]
    simp only [List.filter_append, List.filter_cons, hd, if_true, List.map_append, List.map_cons,
      List.sum_append, List.sum_cons, hterm]
    omega
  refine ⟨?_, ?_⟩
  · simp only [hne, if_false, hsum, Number.ofInt, hwith, if_true]
  · by_cases hnil : (before ++ after).filter (selected U since until_) = []
    · right
      rw [hvalue, hnil]
      simp
    · left
      simp only [hnil, if_false, ← hvalue, Number.ofInt, hwithout, if_true]

theorem self_transfer_counts_as_sent_witness :
    (BalanceList (Adapter.healthy "id9")
        ⟨[⟨"id1", 1, 2, 6, 3⟩] ++ ⟨"id2", 1, 1, 5, 10⟩ :: [⟨"id3", 4, 1, 7, 1⟩]⟩
        [("user", "1"), ("since", "0"), ("until", "10")]).outcome
      = .reply ⟨StatusOK, .balance [⟨1, .long (2 + 10)⟩]⟩ ∧
    ((BalanceList (Adapter.healthy "id9")
        ⟨[⟨"id1", 1, 2, 6, 3⟩] ++ [⟨"id3", 4, 1, 7, 1⟩]⟩
        [("user", "1"), ("since", "0"), ("until", "10")]).outcome
        = .reply ⟨StatusOK, .balance [⟨1, .long 2⟩]⟩ ∨
      ((BalanceList (Adapter.healthy "id9")
        ⟨[⟨"id1", 1, 2, 6, 3⟩] ++ [⟨"id3", 4, 1, 7, 1⟩]⟩
        [("user", "1"), ("since", "0"), ("until", "10")]).outcome
        = .reply ⟨StatusOK, .balance []⟩ ∧ (2 : Int) = 0)) :=
  self_transfer_counts_as_sent (Adapter.healthy "id9") [⟨"id1", 1, 2, 6, 3⟩]
    [⟨"id3", 4, 1, 7, 1⟩] ⟨"id2", 1, 1, 5, 10⟩ [("user", "1"), ("since", "0"), ("until", "10")]
    1 0 10 2 rfl rfl (by decide) (by decide) (by decide) ⟨rfl, rfl⟩ (by decide) (by decide)
    (by decide) (by decide) (by decide)

/-! ## TransactionsList -/

theorem listQuery_matches ( local_ : Location) (params : Values) (d : Doc) :
    (listQuery local_ params).matches d
      = conjunction (optional (params.Get "user") Atoi)
          ((optional (params.Get "day") (fun s => ParseInt s 64)).map
            (fun day => (dayStart local_ day, dayEnd local_ day)))
          (optional (params.Get "threshold") Atoi) d := by
  unfold listQuery
  generalize optional (params.Get "user") Atoi = user
  generalize optional (params.Get "day") (fun s => ParseInt s 64) = day
  generalize optional (params.Get "threshold") Atoi = threshold
  have hend : (23 : Int) * 3600 + 59 * 60 + 59 = 86399 := by norm_num
  have hstart : ∀ x : Int, x + ((0 : Int) * 3600 + 0 * 60 + 0) = x := by
    intro x
    omega
  rw [Bool.eq_iff_iff]
  cases user <;> cases day <;> cases threshold <;>
    simp only [Query.set, Clause.key, Query.matches, Clause.holds, Doc.num, Doc.has, conjunction,
      date_of_unix, dayStart, dayEnd, hend, hstart] <;>
    simp [Clause.holds, Doc.num, Doc.has, and_assoc]

/-- What `TransactionsList` answers when the adapter does not fault, with the day bounds in the
closed form `dayStart`, `dayEnd` (the local calendar date of the parameter, as `int64`). -/
theorem list_run ( local_ : Location) (a : Adapter) (transactions : Collection) (params : Values)
    (hidx : a.EnsureIndex = none) (hfind : a.Find = none) :
    (TransactionsList local_ a transactions params).outcome
      = .reply ⟨StatusOK, .transactions
          ((transactions.docs.filter
            (conjunction (optional (params.Get "user") Atoi)
              ((optional (params.Get "day") (fun s => ParseInt s 64)).map
                (fun day => (dayStart local_ day, dayEnd local_ day)))
              (optional (params.Get "threshold") Atoi))).map
            (fun d => (⟨d._id, d.sender, d.receiver, d.timestamp, d.sum⟩ : Transaction)))⟩ := by
  have hq : transactions.docs.filter (listQuery local_ params).matches
      = transactions.docs.filter
          (conjunction (optional (params.Get "user") Atoi)
            ((optional (params.Get "day") (fun s => ParseInt s 64)).map
              (fun day => (dayStart local_ day, dayEnd local_ day)))
            (optional (params.Get "threshold") Atoi)) :=
    List.filter_congr (fun d _ => listQuery_matches local_ params d)
  have hmap : ∀ l : List Doc, l.map Doc.toTransaction = l.map
      (fun d => (⟨d._id, d.sender, d.receiver, d.timestamp, d.sum⟩ : Transaction)) :=
    fun _ => rfl
  simp [TransactionsList, hidx, hfind, Collection.Find, hq, hmap]

theorem day_bounds_UTC (day : Int) (hlo : -9223372028715321600 ≤ day)
    (hhi : 86400 * (day / 86400) + 86399 < 9223372036854775808) :
    dayStart UTC day = 86400 * (day / 86400) ∧
      dayEnd UTC day = 86400 * (day / 86400) + 86399 := by
  have hday : day < 9223372036854775808 := by omega
  have habs : (day + 0 + 9223372028715321600) % 18446744073709551616
      = day + 9223372028715321600 := by omega
  have hq : 86400 * ((day + 9223372028715321600) / 86400) - 9223372028715321600
      = 86400 * (day / 86400) := by omega
  simp only [dayStart, dayEnd, Unix, Time.abs, UTC, unixToAbsolute, wrap64, habs, hq]
  constructor <;> omega

/-- When the process runs with the local zone UTC, `list(day=raw)` returns exactly the stored
transactions with `start ≤ timestamp < start + 86399`, `start` being midnight UTC of the UTC day
of the parameter: the second 23:59:59 of that day is left out, every other second is in. The
parameter is taken in the range where neither the absolute seconds of the `time` package nor the
`int64` of the end of the day wrap. -/
theorem list_day_in_UTC (a : Adapter) (transactions : Collection) (raw : String) (day : Int)
    (hraw : ParseInt raw 64 = some day) (hfind : a.Find = none)
    (hlo : -9223372028715321600 ≤ day)
    (hhi : 86400 * (day / 86400) + 86399 < 9223372036854775808) :
    (TransactionsList UTC a transactions [("day", raw)]).outcome
      = .reply ⟨StatusOK, .transactions
          ((transactions.docs.filter (fun d =>
              decide (86400 * (day / 86400) ≤ d.timestamp ∧
                d.timestamp < 86400 * (day / 86400) + 86399))).map
            (fun d => (⟨d._id, d.sender, d.receiver, d.timestamp, d.sum⟩ : Transaction)))⟩ := by
  have hu : optional (Values.Get [("day", raw)] "user") Atoi = none := by
    simp [Values.Get, optional]
  have ht : optional (Values.Get [("day", raw)] "threshold") Atoi = none := by
    simp [Values.Get, optional]
  have hd : optional (Values.Get [("day", raw)] "day") (fun s => ParseInt s 64) = some day := by
    rw [optional_eq]
    simpa [Values.Get] using hraw
  have hdecl : (match optional (Values.Get [("day", raw)] "user") Atoi with
      | some _ => [Call.EnsureIndex index]
      | none => []) = [] := by rw [hu]
  have hq : transactions.docs.filter (listQuery UTC [("day", raw)]).matches
      = transactions.docs.filter (fun d =>
          decide (86400 * (day / 86400) ≤ d.timestamp ∧
            d.timestamp < 86400 * (day / 86400) + 86399)) := by
    apply List.filter_congr
    intro d _
    rw [listQuery_matches, hu, ht, hd]
    simp [conjunction, (day_bounds_UTC day hlo hhi).1, (day_bounds_UTC day hlo hhi).2]
  have hmap : ∀ l : List Doc, l.map Doc.toTransaction = l.map
      (fun d => (⟨d._id, d.sender, d.receiver, d.timestamp, d.sum⟩ : Transaction)) :=
    fun _ => rfl
  simp only [TransactionsList, hdecl, hfind, Collection.Find, hq, hmap]
  simp

/-- The example of the filter composition, in a process whose local zone is UTC: with
A (sender 1, receiver 2, sum 50) and B (sender 3, receiver 1, sum 200) stored, `list(user=1)`
returns A and B, `list(user=1, threshold=100)` returns B only, and `list()` returns both. -/
theorem list_composition_example :
    (TransactionsList UTC (Adapter.healthy "id9")
        ⟨[⟨"A", 1, 2, 86400, 50⟩, ⟨"B", 3, 1, 172800, 200⟩]⟩ [("user", "1")]).outcome
      = .reply ⟨StatusOK, .transactions [⟨"A", 1, 2, 86400, 50⟩, ⟨"B", 3, 1, 172800, 200⟩]⟩ ∧
    (TransactionsList UTC (Adapter.healthy "id9")
        ⟨[⟨"A", 1, 2, 86400, 50⟩, ⟨"B", 3, 1, 172800, 200⟩]⟩
        [("user", "1"), ("threshold", "100")]).outcome
      = .reply ⟨StatusOK, .transactions [⟨"B", 3, 1, 172800, 200⟩]⟩ ∧
    (TransactionsList UTC (Adapter.healthy "id9")
        ⟨[⟨"A", 1, 2, 86400, 50⟩, ⟨"B", 3, 1, 172800, 200⟩]⟩ []).outcome
      = .reply ⟨StatusOK, .transactions [⟨"A", 1, 2, 86400, 50⟩, ⟨"B", 3, 1, 172800, 200⟩]⟩ := by
  decide

/-- C4 at a process whose local zone is two hours east of UTC: with A (sender 1, receiver 2,
timestamp 79200, sum 50) and B (sender 3, receiver 1, timestamp 172800, sum 200) stored,
`list(user=1, day=79200)` returns nothing, although A satisfies the conjunction of the two
conditions: its sender is 1 and its timestamp lies in `[0, 86399)`, the range of the UTC day of
79200. The same request in a process whose local zone is UTC returns A. -/
theorem list_conjunction_follows_local_date :
    (TransactionsList (FixedZone 7200) (Adapter.healthy "id9")
        ⟨[⟨"A", 1, 2, 79200, 50⟩, ⟨"B", 3, 1, 172800, 200⟩]⟩
        [("user", "1"), ("day", "79200")]).outcome = .reply ⟨StatusOK, .transactions []⟩ ∧
    conjunction (some 1) (some (86400 * (79200 / 86400), 86400 * (79200 / 86400) + 86399)) none
        ⟨"A", 1, 2, 79200, 50⟩ = true ∧
    (TransactionsList UTC (Adapter.healthy "id9")
        ⟨[⟨"A", 1, 2, 79200, 50⟩, ⟨"B", 3, 1, 172800, 200⟩]⟩
        [("user", "1"), ("day", "79200")]).outcome
      = .reply ⟨StatusOK, .transactions [⟨"A", 1, 2, 79200, 50⟩]⟩ := by
  decide

/-- C5 at a process whose local zone is two hours east of UTC: for `day=79200` (22:00:00 UTC of
1970-01-01) the handler asks for timestamps in `[86400, 172799)`, the bounds of 1970-01-02, so the
transaction made at the very instant `79200` is not listed although
`0 ≤ 79200 < 86399` with `0 = 86400 * floor(79200 / 86400)`. -/
theorem day_filter_follows_local_date :
    listQuery (FixedZone 7200) [("day", "79200")]
      = [.exists_ ._id true, .gteLt .timestamp 86400 172799] ∧
    (TransactionsList (FixedZone 7200) (Adapter.healthy "id9") ⟨[⟨"id1", 1, 2, 79200, 5⟩]⟩
        [("day", "79200")]).outcome = .reply ⟨StatusOK, .transactions []⟩ ∧
    (86400 * ((79200 : Int) / 86400) = 0 ∧ (0 : Int) ≤ 79200 ∧ (79200 : Int) < 0 + 86399) := by
  decide

theorem list_congr ( local_ : Location) (a : Adapter) (transactions : Collection)
    (p q : Values)
    (hu : optional (p.Get "user") Atoi = optional (q.Get "user") Atoi)
    (hd : optional (p.Get "day") (fun s => ParseInt s 64)
      = optional (q.Get "day") (fun s => ParseInt s 64))
    (ht : optional (p.Get "threshold") Atoi = optional (q.Get "threshold") Atoi) :
    listQuery local_ p = listQuery local_ q ∧
      TransactionsList local_ a transactions p = TransactionsList local_ a transactions q := by
  have hq : listQuery local_ p = listQuery local_ q := by
    simp only [listQuery, hu, hd, ht]
  refine ⟨hq, ?_⟩
  simp only [TransactionsList, hu, hq]

theorem optional_Del_self (params : Values) (key : String) (parse : String → Option Int) :
    optional ((params.Del key).Get key) parse = none := by
  simp [Get_Del_self, optional]

/-- C9: for each of user, day and threshold, when the raw value does not parse as an integer the
query document list builds is the one it builds with that parameter removed, and the whole run
(answer, adapter calls, ledger) is the same as without the parameter. -/
theorem malformed_parameter_ignored ( local_ : Location) (a : Adapter)
    (transactions : Collection) (params : Values) :
    (Atoi (params.Get "user") = none →
      listQuery local_ params = listQuery local_ (params.Del "user") ∧
      TransactionsList local_ a transactions params
        = TransactionsList local_ a transactions (params.Del "user")) ∧
    (ParseInt (params.Get "day") 64 = none →
      listQuery local_ params = listQuery local_ (params.Del "day") ∧
      TransactionsList local_ a transactions params
        = TransactionsList local_ a transactions (params.Del "day")) ∧
    (Atoi (params.Get "threshold") = none →
      listQuery local_ params = listQuery local_ (params.Del "threshold") ∧
      TransactionsList local_ a transactions params
        = TransactionsList local_ a transactions (params.Del "threshold")) := by
  refine ⟨fun h => ?_, fun h => ?_, fun h => ?_⟩
  · apply list_congr
    · rw [optional_Del_self, optional_Atoi, h]
    · rw [Get_Del_other params "user" "day" (by decide)]
    · rw [Get_Del_other params "user" "threshold" (by decide)]
  · apply list_congr
    · rw [Get_Del_other params "day" "user" (by decide)]
    · rw [optional_Del_self, optional_eq, h]
    · rw [Get_Del_other params "day" "threshold" (by decide)]
  · apply list_congr
    · rw [Get_Del_other params "threshold" "user" (by decide)]
    · rw [Get_Del_other params "threshold" "day" (by decide)]
    · rw [optional_Del_self, optional_Atoi, h]

theorem malformed_parameter_ignored_witness :
    (listQuery UTC [("user", "1x"), ("threshold", "100")] = listQuery UTC [("threshold", "100")] ∧
      TransactionsList UTC (Adapter.healthy "id9") ⟨[⟨"A", 1, 2, 86400, 50⟩]⟩
          [("user", "1x"), ("threshold", "100")]
        = TransactionsList UTC (Adapter.healthy "id9") ⟨[⟨"A", 1, 2, 86400, 50⟩]⟩
          [("threshold", "100")]) ∧
    (listQuery UTC [("day", "today"), ("user", "1")] = listQuery UTC [("user", "1")] ∧
      TransactionsList UTC (Adapter.healthy "id9") ⟨[⟨"A", 1, 2, 86400, 50⟩]⟩
          [("day", "today"), ("user", "1")]
        = TransactionsList UTC (Adapter.healthy "id9") ⟨[⟨"A", 1, 2, 86400, 50⟩]⟩
          [("user", "1")]) ∧
    (listQuery UTC [("threshold", "1e3")] = listQuery UTC [] ∧
      TransactionsList UTC (Adapter.healthy "id9") ⟨[⟨"A", 1, 2, 86400, 50⟩]⟩
          [("threshold", "1e3")]
        = TransactionsList UTC (Adapter.healthy "id9") ⟨[⟨"A", 1, 2, 86400, 50⟩]⟩ []) :=
  ⟨(malformed_parameter_ignored UTC (Adapter.healthy "id9") ⟨[⟨"A", 1, 2, 86400, 50⟩]⟩
      [("user", "1x"), ("threshold", "100")]).1 (by decide),
   (malformed_parameter_ignored UTC (Adapter.healthy "id9") ⟨[⟨"A", 1, 2, 86400, 50⟩]⟩
      [("day", "today"), ("user", "1")]).2.1 (by decide),
   (malformed_parameter_ignored UTC (Adapter.healthy "id9") ⟨[⟨"A", 1, 2, 86400, 50⟩]⟩
      [("threshold", "1e3")]).2.2 (by decide)⟩

end Transacto

